import Mathlib

/-!
# Verification of the PKP Tool Registry policy facet

Shallow embedding of `src/packages/aw-contracts/src/facets/PKPToolRegistryPolicyFacet.sol`
(the policy resolution and mutation engine of the registry).

Modelling choices:
* `bytes32` content hashes are the inductive `B32`: `B32.zero` is `bytes32(0)` and
  `B32.hashOf s` is the keccak-256 hash of string `s`.  The code relies on keccak being
  collision-free on the CIDs it stores and on no CID hashing to zero; `B32` realises both
  assumptions by construction (constructor injectivity and disjointness).
* Ethereum addresses are `Nat`; the zero address is `0`.
* Solidity mappings are association lists with zero-initialised defaults, exactly the
  observable behaviour of storage mappings (`lookupD` with the zero value of the struct).
* A Solidity `revert` aborts the whole transaction and rolls every write back; each
  external entry point is therefore `... → Except Err Layout`, and `runTx` gives the
  post-transaction state (the new state on success, the unchanged pre-state on revert).
* Events are an outward side channel never read back by the contract and are not modelled.

The facet inherits `_hashToolCid`, `_setToolPolicy`, `_removeToolPolicy`, `_enablePolicy`
and `_disablePolicy` from `PKPToolRegistryPolicyBase`, and the `onlyPKPOwner` modifier;
those sources are not in the repository snapshot, so they are modelled from the spec
(each such definition carries a `Modelled from the spec:` doc comment).  Everything else
is translated line by line from the facet.
-/

namespace PKPToolRegistry

/-- `bytes32` values used as content hashes: `zero` is `bytes32(0)`, `hashOf s` is the
keccak-256 hash of the string `s`, modelled as an injective embedding (the contract
assumes keccak is collision-free on CIDs and that no CID hashes to zero). -/
inductive B32 where
  | zero : B32
  | hashOf : String → B32
deriving DecidableEq, Repr

/-- The revert reasons of `PKPToolRegistryErrors` used by the policy facet. -/
inductive Err where
  | ToolNotFound : String → Err
  | ArrayLengthMismatch : Err
  | InvalidDelegatee : Err
  | NotPKPOwner : Err
  | EmptyPolicyIPFSCID : Err
  | NoPolicySet : Err
deriving DecidableEq, Repr

/-- `PKPToolRegistryStorage.Policy`: a content hash plus an enabled flag. -/
structure Policy where
  policyIpfsCidHash : B32
  enabled : Bool
deriving DecidableEq, Repr

/-- The zero-initialised `Policy` struct (what an unset mapping slot reads as). -/
def emptyPolicy : Policy := { policyIpfsCidHash := B32.zero, enabled := false }

/-- `PKPToolRegistryStorage.ToolInfo`: enabled flag, the single blanket-policy slot
(`blanketPolicy[0]` in the source), and the delegatee → custom-policy mapping. -/
structure ToolInfo where
  enabled : Bool
  blanketPolicy : Policy
  delegateeCustomPolicies : List (Nat × Policy)
deriving DecidableEq, Repr

/-- The zero-initialised `ToolInfo`. -/
def emptyToolInfo : ToolInfo :=
  { enabled := false, blanketPolicy := emptyPolicy, delegateeCustomPolicies := [] }

/-- `PKPToolRegistryStorage.PKPData`: the registered tool-hash set and the
tool-hash → `ToolInfo` mapping of one PKP (key entity). -/
structure PKPData where
  toolCids : List B32
  toolMap : List (B32 × ToolInfo)
deriving DecidableEq, Repr

/-- The zero-initialised `PKPData`. -/
def emptyPKPData : PKPData := { toolCids := [], toolMap := [] }

/-- `PKPToolRegistryStorage.Layout`: the PKP store plus the global reverse index
`hashedPolicyCidToOriginalCid` from policy-CID hash back to the original CID. -/
structure Layout where
  pkpStore : List (Nat × PKPData)
  hashedPolicyCidToOriginalCid : List (B32 × String)
deriving DecidableEq, Repr

/-- Mapping read with zero-value default, the observable semantics of a Solidity
storage mapping. -/
def lookupD {α β : Type} [DecidableEq α] (m : List (α × β)) (k : α) (dflt : β) : β :=
  match m with
  | [] => dflt
  | (k', v) :: rest => if k = k' then v else lookupD rest k dflt

/-- Mapping write: replace the entry at the key, or append it. -/
def setA {α β : Type} [DecidableEq α] (m : List (α × β)) (k : α) (v : β) : List (α × β) :=
  match m with
  | [] => [(k, v)]
  | (k', v') :: rest => if k = k' then (k, v) :: rest else (k', v') :: setA rest k v

/-- `l.pkpStore[pkpTokenId]`. -/
def Layout.pkpData (l : Layout) (pkpTokenId : Nat) : PKPData :=
  lookupD l.pkpStore pkpTokenId emptyPKPData

/-- `pkpData.toolMap[toolCidHash]`. -/
def PKPData.tool (d : PKPData) (toolCidHash : B32) : ToolInfo :=
  lookupD d.toolMap toolCidHash emptyToolInfo

/-- `tool.delegateeCustomPolicies[delegatee]`. -/
def ToolInfo.customPolicy (t : ToolInfo) (delegatee : Nat) : Policy :=
  lookupD t.delegateeCustomPolicies delegatee emptyPolicy

/-- `l.hashedPolicyCidToOriginalCid[h]` (empty string when unset). -/
def Layout.origCid (l : Layout) (h : B32) : String :=
  lookupD l.hashedPolicyCidToOriginalCid h ""

/-- Modelled from the spec: `_hashToolCid` of `PKPToolRegistryPolicyBase` (not in the
snapshot) computes the keccak-256 content hash of a tool CID. -/
def hashToolCid (cid : String) : B32 := B32.hashOf cid

/-- Modelled from the spec: the keccak-256 content hash of a policy CID, computed in
`PKPToolRegistryPolicyBase._setToolPolicy` (not in the snapshot). -/
def hashPolicyCid (cid : String) : B32 := B32.hashOf cid

/-- `getEffectiveToolPolicyForDelegatee`: revert `ToolNotFound` when the tool-CID hash is
not a member of the PKP's registered tool set; otherwise return the delegatee-specific
policy when its hash is non-zero and it is enabled (flag `true`), else the blanket policy
when its hash is non-zero and it is enabled (flag `false`), else `("", false)`. -/
def getEffectiveToolPolicyForDelegatee (l : Layout) (pkpTokenId : Nat)
    (toolIpfsCid : String) (delegatee : Nat) : Except Err (String × Bool) :=
  let pkpData := l.pkpData pkpTokenId
  let toolCidHash := hashToolCid toolIpfsCid
  if toolCidHash ∉ pkpData.toolCids then
    .error (Err.ToolNotFound toolIpfsCid)
  else
    let tool := pkpData.tool toolCidHash
    let delegateePolicy := tool.customPolicy delegatee
    if delegateePolicy.policyIpfsCidHash ≠ B32.zero ∧ delegateePolicy.enabled = true then
      .ok (l.origCid delegateePolicy.policyIpfsCidHash, true)
    else
      let blanketPolicy := tool.blanketPolicy
      if blanketPolicy.policyIpfsCidHash ≠ B32.zero ∧ blanketPolicy.enabled = true then
        .ok (l.origCid blanketPolicy.policyIpfsCidHash, false)
      else
        .ok ("", false)

/-- `getCustomToolPolicyForDelegatee`: revert `ToolNotFound` when the tool is not
registered; otherwise return the delegatee-specific policy CID and its enabled flag when
its hash is non-zero, else `("", false)` — the blanket policy is never consulted. -/
def getCustomToolPolicyForDelegatee (l : Layout) (pkpTokenId : Nat)
    (toolIpfsCid : String) (delegatee : Nat) : Except Err (String × Bool) :=
  let pkpData := l.pkpData pkpTokenId
  let toolCidHash := hashToolCid toolIpfsCid
  if toolCidHash ∉ pkpData.toolCids then
    .error (Err.ToolNotFound toolIpfsCid)
  else
    let tool := pkpData.tool toolCidHash
    let policy := tool.customPolicy delegatee
    if policy.policyIpfsCidHash ≠ B32.zero then
      .ok (l.origCid policy.policyIpfsCidHash, policy.enabled)
    else
      .ok ("", false)

/-- `true` exactly on a non-reverting result. -/
def isOkRes {α : Type} : Except Err α → Bool
  | .ok _ => true
  | .error _ => false

/-- Write the custom-policy slot of `(pkpTokenId, toolCidHash, delegatee)`; this is the
storage effect `tool.delegateeCustomPolicies[delegatee] = pol` of the base functions. -/
def writeCustomPolicy (l : Layout) (pkpTokenId : Nat) (toolCidHash : B32)
    (delegatee : Nat) (pol : Policy) : Layout :=
  let d := l.pkpData pkpTokenId
  let t := d.tool toolCidHash
  let t' := { t with delegateeCustomPolicies := setA t.delegateeCustomPolicies delegatee pol }
  let d' := { d with toolMap := setA d.toolMap toolCidHash t' }
  { l with pkpStore := setA l.pkpStore pkpTokenId d' }

/-- The storage effect of a successful `_setToolPolicy` element: write the custom slot
with the policy-CID hash and the caller-supplied enabled flag, and populate the
reverse-index entry for that hash. -/
def recordPolicyWrite (l : Layout) (pkpTokenId : Nat) (toolCidHash : B32)
    (delegatee : Nat) (policyIpfsCid : String) (enablePolicy : Bool) : Layout :=
  let policyHash := hashPolicyCid policyIpfsCid
  let l' := writeCustomPolicy l pkpTokenId toolCidHash delegatee
    { policyIpfsCidHash := policyHash, enabled := enablePolicy }
  let ri := setA l'.hashedPolicyCidToOriginalCid policyHash policyIpfsCid
  { l' with hashedPolicyCidToOriginalCid := ri }

/-- Modelled from the spec: `PKPToolRegistryPolicyBase._setToolPolicy` (not in the
snapshot).  Per §4.3 and the facet's documented throws: revert `EmptyPolicyIPFSCID` on an
empty policy CID, revert `ToolNotFound` when the tool is not registered (invariant 2),
otherwise record the content hash of the policy CID in the custom slot with the
caller-supplied enabled flag and populate the reverse-index entry for that hash. -/
def setToolPolicy (l : Layout) (pkpTokenId : Nat) (toolIpfsCid : String)
    (delegatee : Nat) (policyIpfsCid : String) (enablePolicy : Bool) :
    Except Err Layout :=
  if policyIpfsCid = "" then .error Err.EmptyPolicyIPFSCID
  else
    let toolCidHash := hashToolCid toolIpfsCid
    if toolCidHash ∉ (l.pkpData pkpTokenId).toolCids then
      .error (Err.ToolNotFound toolIpfsCid)
    else
      .ok (recordPolicyWrite l pkpTokenId toolCidHash delegatee policyIpfsCid
        enablePolicy)

/-- Modelled from the spec: `PKPToolRegistryPolicyBase._removeToolPolicy` (not in the
snapshot).  Per §4.3: revert `ToolNotFound` when the tool is not registered (invariant 2),
revert `NoPolicySet` when no custom policy hash exists at the slot, otherwise clear the
slot entirely (hash back to zero). -/
def removeToolPolicy (l : Layout) (pkpTokenId : Nat) (toolIpfsCid : String)
    (delegatee : Nat) : Except Err Layout :=
  let toolCidHash := hashToolCid toolIpfsCid
  if toolCidHash ∉ (l.pkpData pkpTokenId).toolCids then
    .error (Err.ToolNotFound toolIpfsCid)
  else if ((l.pkpData pkpTokenId).tool toolCidHash |>.customPolicy delegatee).policyIpfsCidHash
      = B32.zero then
    .error Err.NoPolicySet
  else
    .ok (writeCustomPolicy l pkpTokenId toolCidHash delegatee emptyPolicy)

/-- Modelled from the spec: the common core of `PKPToolRegistryPolicyBase._enablePolicy`
and `_disablePolicy` (not in the snapshot).  Per §4.3: revert `ToolNotFound` when the tool
is not registered, revert `NoPolicySet` when no custom policy hash exists at the slot
(toggling an absent policy is an error, not a no-op), otherwise set the enabled flag only. -/
def togglePolicy (newEnabled : Bool) (l : Layout) (pkpTokenId : Nat)
    (toolIpfsCid : String) (delegatee : Nat) : Except Err Layout :=
  let toolCidHash := hashToolCid toolIpfsCid
  if toolCidHash ∉ (l.pkpData pkpTokenId).toolCids then
    .error (Err.ToolNotFound toolIpfsCid)
  else
    let pol := (l.pkpData pkpTokenId).tool toolCidHash |>.customPolicy delegatee
    if pol.policyIpfsCidHash = B32.zero then
      .error Err.NoPolicySet
    else
      .ok (writeCustomPolicy l pkpTokenId toolCidHash delegatee
        { pol with enabled := newEnabled })

/-- Modelled from the spec: `PKPToolRegistryPolicyBase._enablePolicy`. -/
def enablePolicy : Layout → Nat → String → Nat → Except Err Layout := togglePolicy true

/-- Modelled from the spec: `PKPToolRegistryPolicyBase._disablePolicy`. -/
def disablePolicy : Layout → Nat → String → Nat → Except Err Layout := togglePolicy false

/-- The per-index loop of `setCustomToolPoliciesForDelegatees`: at each index revert
`InvalidDelegatee` on the zero address, then `_setToolPolicy`. -/
def setPoliciesLoop (pkpTokenId : Nat) (enablePolicies : Bool) :
    Layout → List String → List Nat → List String → Except Err Layout
  | l, t :: ts, d :: ds, p :: ps =>
    if d = 0 then .error Err.InvalidDelegatee
    else
      match setToolPolicy l pkpTokenId t d p enablePolicies with
      | .error e => .error e
      | .ok l' => setPoliciesLoop pkpTokenId enablePolicies l' ts ds ps
  | l, _, _, _ => .ok l

/-- The per-index loop shared by the remove/enable/disable entry points: at each index
revert `InvalidDelegatee` on the zero address, then run the base-function step. -/
def policyPairLoop (step : Layout → String → Nat → Except Err Layout) :
    Layout → List String → List Nat → Except Err Layout
  | l, t :: ts, d :: ds =>
    if d = 0 then .error Err.InvalidDelegatee
    else
      match step l t d with
      | .error e => .error e
      | .ok l' => policyPairLoop step l' ts ds
  | l, _, _ => .ok l

/-- Modelled from the spec: the `onlyPKPOwner` Access Guard (§4.4, not in the snapshot):
the caller must equal the externally-resolved owner of the PKP, else revert `NotPKPOwner`;
this modifier runs before the entry-point body.  `ownerOf` is the external ownership
oracle. -/
def onlyPKPOwnerGuard (ownerOf : Nat → Nat) (caller pkpTokenId : Nat)
    (body : Except Err Layout) : Except Err Layout :=
  if caller ≠ ownerOf pkpTokenId then .error Err.NotPKPOwner else body

/-- `setCustomToolPoliciesForDelegatees`: owner guard, then the three-way array-length
check (revert `ArrayLengthMismatch`), then the per-index loop. -/
def setCustomToolPoliciesForDelegatees (ownerOf : Nat → Nat) (caller : Nat) (l : Layout)
    (pkpTokenId : Nat) (toolIpfsCids : List String) (delegatees : List Nat)
    (policyIpfsCids : List String) (enablePolicies : Bool) : Except Err Layout :=
  onlyPKPOwnerGuard ownerOf caller pkpTokenId <|
    if ¬(toolIpfsCids.length = delegatees.length ∧
         delegatees.length = policyIpfsCids.length) then
      .error Err.ArrayLengthMismatch
    else
      setPoliciesLoop pkpTokenId enablePolicies l toolIpfsCids delegatees policyIpfsCids

/-- `removeCustomToolPoliciesForDelegatees`: owner guard, length check, per-index loop. -/
def removeCustomToolPoliciesForDelegatees (ownerOf : Nat → Nat) (caller : Nat)
    (l : Layout) (pkpTokenId : Nat) (toolIpfsCids : List String)
    (delegatees : List Nat) : Except Err Layout :=
  onlyPKPOwnerGuard ownerOf caller pkpTokenId <|
    if toolIpfsCids.length ≠ delegatees.length then .error Err.ArrayLengthMismatch
    else policyPairLoop (fun l' t d => removeToolPolicy l' pkpTokenId t d)
      l toolIpfsCids delegatees

/-- `enableCustomToolPoliciesForDelegatees`: owner guard, length check, per-index loop. -/
def enableCustomToolPoliciesForDelegatees (ownerOf : Nat → Nat) (caller : Nat)
    (l : Layout) (pkpTokenId : Nat) (toolIpfsCids : List String)
    (delegatees : List Nat) : Except Err Layout :=
  onlyPKPOwnerGuard ownerOf caller pkpTokenId <|
    if toolIpfsCids.length ≠ delegatees.length then .error Err.ArrayLengthMismatch
    else policyPairLoop (fun l' t d => enablePolicy l' pkpTokenId t d)
      l toolIpfsCids delegatees

/-- `disableCustomToolPoliciesForDelegatees`: owner guard, length check, per-index loop. -/
def disableCustomToolPoliciesForDelegatees (ownerOf : Nat → Nat) (caller : Nat)
    (l : Layout) (pkpTokenId : Nat) (toolIpfsCids : List String)
    (delegatees : List Nat) : Except Err Layout :=
  onlyPKPOwnerGuard ownerOf caller pkpTokenId <|
    if toolIpfsCids.length ≠ delegatees.length then .error Err.ArrayLengthMismatch
    else policyPairLoop (fun l' t d => disablePolicy l' pkpTokenId t d)
      l toolIpfsCids delegatees

/-- Transaction semantics of the hosting EVM: a revert rolls every write back, so the
post-transaction state is the result on success and the unchanged pre-state on error. -/
def runTx (r : Except Err Layout) (l : Layout) : Layout :=
  match r with
  | .ok l' => l'
  | .error _ => l

/-! ## Mapping lemmas -/

theorem lookupD_setA {α β : Type} [DecidableEq α] (m : List (α × β)) (k k' : α)
    (v dflt : β) :
    lookupD (setA m k v) k' dflt = if k' = k then v else lookupD m k' dflt := by
  induction m with
  | nil => simp [setA, lookupD]
  | cons hd tl ih =>
    obtain ⟨k₀, v₀⟩ := hd
    by_cases h : k = k₀
    · subst h
      by_cases h' : k' = k <;> simp [setA, lookupD, h']
    · by_cases h1 : k' = k₀ <;> by_cases h2 : k' = k <;>
        simp [setA, lookupD, h, h1, h2, ih] <;> simp_all

/-- `writeCustomPolicy` leaves the reverse index untouched. -/
theorem writeCustomPolicy_origCid (l : Layout) (pkpTokenId : Nat) (toolCidHash : B32)
    (delegatee : Nat) (pol : Policy) (h : B32) :
    (writeCustomPolicy l pkpTokenId toolCidHash delegatee pol).origCid h = l.origCid h := by
  simp [writeCustomPolicy, Layout.origCid]

/-- `writeCustomPolicy` leaves every registered-tool set untouched. -/
theorem writeCustomPolicy_toolCids (l : Layout) (pkpTokenId : Nat) (toolCidHash : B32)
    (delegatee : Nat) (pol : Policy) (p' : Nat) :
    ((writeCustomPolicy l pkpTokenId toolCidHash delegatee pol).pkpData p').toolCids
      = (l.pkpData p').toolCids := by
  simp only [writeCustomPolicy, Layout.pkpData, lookupD_setA]
  by_cases h : p' = pkpTokenId <;> simp [h]

/-- Reading a custom-policy slot after `writeCustomPolicy`: the written slot holds the
new policy, every other slot is unchanged. -/
theorem writeCustomPolicy_customPolicy (l : Layout) (pkpTokenId : Nat)
    (toolCidHash : B32) (delegatee : Nat) (pol : Policy) (p' : Nat) (th' : B32) (d' : Nat) :
    (((writeCustomPolicy l pkpTokenId toolCidHash delegatee pol).pkpData p').tool th'
        |>.customPolicy d')
      = if p' = pkpTokenId ∧ th' = toolCidHash ∧ d' = delegatee then pol
        else ((l.pkpData p').tool th').customPolicy d' := by
  simp only [writeCustomPolicy, Layout.pkpData, PKPData.tool, ToolInfo.customPolicy,
    lookupD_setA]
  by_cases h1 : p' = pkpTokenId <;> by_cases h2 : th' = toolCidHash <;>
    by_cases h3 : d' = delegatee <;>
    simp [h1, h2, h3, PKPData.tool, ToolInfo.customPolicy, lookupD_setA]

/-! ## Concrete states used by the witnesses -/

/-- A tool whose `enabled` flag is `false`, carrying an enabled blanket policy `polA`,
an enabled custom policy `polB` for delegatee `5` and a disabled custom policy `polC`
for delegatee `7`. -/
def wTool : ToolInfo :=
  { enabled := false
    blanketPolicy := { policyIpfsCidHash := B32.hashOf "polA", enabled := true }
    delegateeCustomPolicies :=
      [(5, { policyIpfsCidHash := B32.hashOf "polB", enabled := true }),
       (7, { policyIpfsCidHash := B32.hashOf "polC", enabled := false })] }

/-- A registry state with PKP `1` holding the registered tool `cidA` (`wTool`) and a
consistent reverse index. -/
def wLayout : Layout :=
  { pkpStore := [(1, { toolCids := [B32.hashOf "cidA"],
                       toolMap := [(B32.hashOf "cidA", wTool)] })]
    hashedPolicyCidToOriginalCid :=
      [(B32.hashOf "polA", "polA"), (B32.hashOf "polB", "polB"),
       (B32.hashOf "polC", "polC")] }

/-! ## Claim theorems: the read path -/

/-- C1: for every state, every tool registered in a key entity's tool set and every
delegatee `d`, if the tool holds a custom policy for `d` with a non-zero hash and enabled
flag `true`, then `getEffectiveToolPolicyForDelegatee` returns that custom policy's
identifier (the reverse-index image of its stored hash) with `isDelegateeSpecific = true`,
with no assumption on the blanket policy. -/
theorem getEffective_custom_wins (l : Layout) (pkpTokenId : Nat) (toolIpfsCid : String)
    (delegatee : Nat)
    (hreg : hashToolCid toolIpfsCid ∈ (l.pkpData pkpTokenId).toolCids)
    (hhash : (((l.pkpData pkpTokenId).tool (hashToolCid toolIpfsCid)).customPolicy
        delegatee).policyIpfsCidHash ≠ B32.zero)
    (hen : (((l.pkpData pkpTokenId).tool (hashToolCid toolIpfsCid)).customPolicy
        delegatee).enabled = true) :
    getEffectiveToolPolicyForDelegatee l pkpTokenId toolIpfsCid delegatee =
      .ok (l.origCid (((l.pkpData pkpTokenId).tool (hashToolCid toolIpfsCid)).customPolicy
        delegatee).policyIpfsCidHash, true) := by
  simp only [getEffectiveToolPolicyForDelegatee]
  rw [if_neg (not_not_intro hreg), if_pos ⟨hhash, hen⟩]

/-- Witness for C1: in `wLayout` the custom policy `polB` of delegatee `5` is returned
delegatee-specifically even though the blanket policy `polA` is also set and enabled. -/
theorem getEffective_custom_wins_witness :
    getEffectiveToolPolicyForDelegatee wLayout 1 "cidA" 5 = .ok ("polB", true) := by
  have h := getEffective_custom_wins wLayout 1 "cidA" 5 (by decide) (by decide) (by decide)
  simpa [wLayout, wTool, Layout.pkpData, PKPData.tool, ToolInfo.customPolicy,
    Layout.origCid, lookupD, hashToolCid] using h

/-- C2: for every state and registered tool, if the custom policy of delegatee `d` exists
(non-zero hash) but is disabled, and the blanket policy has a non-zero hash and is
enabled, resolution returns the blanket policy's identifier with
`isDelegateeSpecific = false` — not the empty no-policy result. -/
theorem getEffective_blanket_fallback (l : Layout) (pkpTokenId : Nat)
    (toolIpfsCid : String) (delegatee : Nat)
    (hreg : hashToolCid toolIpfsCid ∈ (l.pkpData pkpTokenId).toolCids)
    (hhash : (((l.pkpData pkpTokenId).tool (hashToolCid toolIpfsCid)).customPolicy
        delegatee).policyIpfsCidHash ≠ B32.zero)
    (hdis : (((l.pkpData pkpTokenId).tool (hashToolCid toolIpfsCid)).customPolicy
        delegatee).enabled = false)
    (hbh : (((l.pkpData pkpTokenId).tool (hashToolCid toolIpfsCid)).blanketPolicy
        ).policyIpfsCidHash ≠ B32.zero)
    (hbe : (((l.pkpData pkpTokenId).tool (hashToolCid toolIpfsCid)).blanketPolicy
        ).enabled = true) :
    getEffectiveToolPolicyForDelegatee l pkpTokenId toolIpfsCid delegatee =
      .ok (l.origCid (((l.pkpData pkpTokenId).tool
        (hashToolCid toolIpfsCid)).blanketPolicy).policyIpfsCidHash, false) := by
  simp only [getEffectiveToolPolicyForDelegatee]
  rw [if_neg (not_not_intro hreg), if_neg (by simp [hdis]), if_pos ⟨hbh, hbe⟩]

/-- Witness for C2: in `wLayout` delegatee `7` has the disabled custom policy `polC`,
so resolution returns the enabled blanket policy `polA`, not the empty result. -/
theorem getEffective_blanket_fallback_witness :
    getEffectiveToolPolicyForDelegatee wLayout 1 "cidA" 7 = .ok ("polA", false) := by
  have h := getEffective_blanket_fallback wLayout 1 "cidA" 7 (by decide) (by decide)
    (by decide) (by decide) (by decide)
  simpa [wLayout, wTool, Layout.pkpData, PKPData.tool, ToolInfo.customPolicy,
    Layout.origCid, lookupD, hashToolCid] using h

/-- C4: `getEffectiveToolPolicyForDelegatee` reverts `ToolNotFound` exactly when the
tool-CID hash is not a member of the key entity's registered tool set; when it is a
member the call succeeds (in particular it never reverts `ToolNotFound`), for every
state — including states where the tool's `enabled` flag is `false`, which the read
never consults. -/
theorem getEffective_toolNotFound (l : Layout) (pkpTokenId : Nat) (toolIpfsCid : String)
    (delegatee : Nat) :
    (hashToolCid toolIpfsCid ∉ (l.pkpData pkpTokenId).toolCids →
      getEffectiveToolPolicyForDelegatee l pkpTokenId toolIpfsCid delegatee =
        .error (Err.ToolNotFound toolIpfsCid)) ∧
    (hashToolCid toolIpfsCid ∈ (l.pkpData pkpTokenId).toolCids →
      isOkRes (getEffectiveToolPolicyForDelegatee l pkpTokenId toolIpfsCid delegatee)
        = true) := by
  constructor
  · intro h
    simp [getEffectiveToolPolicyForDelegatee, h]
  · intro h
    simp only [getEffectiveToolPolicyForDelegatee]
    rw [if_neg (not_not_intro h)]
    split <;> [skip; split] <;> simp [isOkRes]

/-- Witness for C4: in `wLayout`, the unregistered `cidZ` reverts `ToolNotFound`, while
the registered but disabled tool `cidA` (`wTool.enabled = false`) resolves successfully. -/
theorem getEffective_toolNotFound_witness :
    getEffectiveToolPolicyForDelegatee wLayout 1 "cidZ" 5 =
        .error (Err.ToolNotFound "cidZ") ∧
      isOkRes (getEffectiveToolPolicyForDelegatee wLayout 1 "cidA" 5) = true :=
  ⟨(getEffective_toolNotFound wLayout 1 "cidZ" 5).1 (by decide),
   (getEffective_toolNotFound wLayout 1 "cidA" 5).2 (by decide)⟩

/-- C9: for every state, registered tool and delegatee `d`, if neither the custom policy
for `d` (non-zero hash and enabled) nor the blanket policy (non-zero hash and enabled)
qualifies, resolution returns the empty policy reference with
`isDelegateeSpecific = false`. -/
theorem getEffective_no_policy (l : Layout) (pkpTokenId : Nat) (toolIpfsCid : String)
    (delegatee : Nat)
    (hreg : hashToolCid toolIpfsCid ∈ (l.pkpData pkpTokenId).toolCids)
    (hc : ¬((((l.pkpData pkpTokenId).tool (hashToolCid toolIpfsCid)).customPolicy
        delegatee).policyIpfsCidHash ≠ B32.zero ∧
        (((l.pkpData pkpTokenId).tool (hashToolCid toolIpfsCid)).customPolicy
        delegatee).enabled = true))
    (hb : ¬((((l.pkpData pkpTokenId).tool
        (hashToolCid toolIpfsCid)).blanketPolicy).policyIpfsCidHash ≠ B32.zero ∧
        (((l.pkpData pkpTokenId).tool (hashToolCid toolIpfsCid)).blanketPolicy).enabled
          = true)) :
    getEffectiveToolPolicyForDelegatee l pkpTokenId toolIpfsCid delegatee =
      .ok ("", false) := by
  simp only [getEffectiveToolPolicyForDelegatee]
  rw [if_neg (not_not_intro hreg), if_neg hc, if_neg hb]

/-- A tool whose blanket policy is disabled and whose only custom policy (for delegatee
`7`) is disabled as well. -/
def wToolAllDisabled : ToolInfo :=
  { enabled := false
    blanketPolicy := { policyIpfsCidHash := B32.hashOf "polA", enabled := false }
    delegateeCustomPolicies :=
      [(7, { policyIpfsCidHash := B32.hashOf "polC", enabled := false })] }

/-- A registry state where neither the custom policy of delegatee `7` nor the blanket
policy of tool `cidA` is enabled. -/
def wLayoutAllDisabled : Layout :=
  { pkpStore := [(1, { toolCids := [B32.hashOf "cidA"],
                       toolMap := [(B32.hashOf "cidA", wToolAllDisabled)] })]
    hashedPolicyCidToOriginalCid := [(B32.hashOf "polA", "polA")] }

/-- Witness for C9: in `wLayoutAllDisabled` the delegatee `7` has only a disabled custom
policy and the blanket policy is disabled, so resolution is empty. -/
theorem getEffective_no_policy_witness :
    getEffectiveToolPolicyForDelegatee wLayoutAllDisabled 1 "cidA" 7 = .ok ("", false) :=
  getEffective_no_policy wLayoutAllDisabled 1 "cidA" 7 (by decide) (by decide) (by decide)

/-- C10: both read operations never revert `InvalidDelegatee` (the zero-delegatee check
belongs to the mutating entry points only), and on a registered tool both succeed at the
zero address, reading the custom-policy slot keyed by address `0` like any other. -/
theorem reads_accept_zero_delegatee (l : Layout) (pkpTokenId : Nat) (toolIpfsCid : String)
    (delegatee : Nat) :
    getEffectiveToolPolicyForDelegatee l pkpTokenId toolIpfsCid delegatee ≠
        .error Err.InvalidDelegatee ∧
      getCustomToolPolicyForDelegatee l pkpTokenId toolIpfsCid delegatee ≠
        .error Err.InvalidDelegatee ∧
      (hashToolCid toolIpfsCid ∈ (l.pkpData pkpTokenId).toolCids →
        isOkRes (getEffectiveToolPolicyForDelegatee l pkpTokenId toolIpfsCid 0) = true ∧
        isOkRes (getCustomToolPolicyForDelegatee l pkpTokenId toolIpfsCid 0) = true) := by
  refine ⟨?_, ?_, fun h => ⟨?_, ?_⟩⟩
  · simp only [getEffectiveToolPolicyForDelegatee]
    split <;> [simp; split <;> [simp; split <;> simp]]
  · simp only [getCustomToolPolicyForDelegatee]
    split <;> [simp; split <;> simp]
  · simp only [getEffectiveToolPolicyForDelegatee]
    rw [if_neg (not_not_intro h)]
    split <;> [skip; split] <;> simp [isOkRes]
  · simp only [getCustomToolPolicyForDelegatee]
    rw [if_neg (not_not_intro h)]
    split <;> simp [isOkRes]

/-- Witness for C10: in `wLayout`, both reads at the zero delegatee succeed on the
registered tool `cidA`. -/
theorem reads_accept_zero_delegatee_witness :
    isOkRes (getEffectiveToolPolicyForDelegatee wLayout 1 "cidA" 0) = true ∧
      isOkRes (getCustomToolPolicyForDelegatee wLayout 1 "cidA" 0) = true :=
  (reads_accept_zero_delegatee wLayout 1 "cidA" 0).2.2 (by decide)

/-! ## Claim theorems: the write path -/

/-- C6: every mutating entry point reverts `NotPKPOwner` when the caller is not the
externally-resolved owner of the PKP, before any other validation (for arbitrary arrays,
mismatched or containing zero delegatees); and the two reads never revert `NotPKPOwner`
for any caller. -/
theorem mutations_owner_guard (ownerOf : Nat → Nat) (caller : Nat) (l : Layout)
    (pkpTokenId : Nat) (ts : List String) (ds : List Nat) (ps : List String) (en : Bool)
    (toolIpfsCid : String) (delegatee : Nat) :
    (caller ≠ ownerOf pkpTokenId →
      setCustomToolPoliciesForDelegatees ownerOf caller l pkpTokenId ts ds ps en =
          .error Err.NotPKPOwner ∧
        removeCustomToolPoliciesForDelegatees ownerOf caller l pkpTokenId ts ds =
          .error Err.NotPKPOwner ∧
        enableCustomToolPoliciesForDelegatees ownerOf caller l pkpTokenId ts ds =
          .error Err.NotPKPOwner ∧
        disableCustomToolPoliciesForDelegatees ownerOf caller l pkpTokenId ts ds =
          .error Err.NotPKPOwner) ∧
      getEffectiveToolPolicyForDelegatee l pkpTokenId toolIpfsCid delegatee ≠
        .error Err.NotPKPOwner ∧
      getCustomToolPolicyForDelegatee l pkpTokenId toolIpfsCid delegatee ≠
        .error Err.NotPKPOwner := by
  refine ⟨fun hne => ?_, ?_, ?_⟩
  · simp [setCustomToolPoliciesForDelegatees, removeCustomToolPoliciesForDelegatees,
      enableCustomToolPoliciesForDelegatees, disableCustomToolPoliciesForDelegatees,
      onlyPKPOwnerGuard, hne]
  · simp only [getEffectiveToolPolicyForDelegatee]
    split <;> [simp; split <;> [simp; split <;> simp]]
  · simp only [getCustomToolPolicyForDelegatee]
    split <;> [simp; split <;> simp]

/-- Witness for C6: a non-owner caller (`3 ≠ 9`) is rejected with `NotPKPOwner` even on a
batch whose arrays mismatch and contain the zero delegatee. -/
theorem mutations_owner_guard_witness :
    setCustomToolPoliciesForDelegatees (fun _ => 9) 3 wLayout 1 ["cidA"] [0] [] true =
        .error Err.NotPKPOwner ∧
      removeCustomToolPoliciesForDelegatees (fun _ => 9) 3 wLayout 1 ["cidA"] [0] =
        .error Err.NotPKPOwner :=
  ⟨((mutations_owner_guard (fun _ => 9) 3 wLayout 1 ["cidA"] [0] [] true "cidA" 5).1
      (by decide)).1,
   ((mutations_owner_guard (fun _ => 9) 3 wLayout 1 ["cidA"] [0] [] true "cidA" 5).1
      (by decide)).2.1⟩

/-- C5: on mismatched array lengths every batch entry point reverts before processing any
element, leaving the state unchanged for every caller; for the owner the revert reason is
`ArrayLengthMismatch` (for a non-owner the owner guard rejects first, see C6). -/
theorem batch_length_mismatch (ownerOf : Nat → Nat) (caller : Nat) (l : Layout)
    (pkpTokenId : Nat) (ts : List String) (ds : List Nat) (ps : List String) (en : Bool) :
    (¬(ts.length = ds.length ∧ ds.length = ps.length) →
      runTx (setCustomToolPoliciesForDelegatees ownerOf caller l pkpTokenId ts ds ps en)
          l = l ∧
        (caller = ownerOf pkpTokenId →
          setCustomToolPoliciesForDelegatees ownerOf caller l pkpTokenId ts ds ps en =
            .error Err.ArrayLengthMismatch)) ∧
    (ts.length ≠ ds.length →
      (runTx (removeCustomToolPoliciesForDelegatees ownerOf caller l pkpTokenId ts ds)
          l = l ∧
        runTx (enableCustomToolPoliciesForDelegatees ownerOf caller l pkpTokenId ts ds)
          l = l ∧
        runTx (disableCustomToolPoliciesForDelegatees ownerOf caller l pkpTokenId ts ds)
          l = l) ∧
      (caller = ownerOf pkpTokenId →
        removeCustomToolPoliciesForDelegatees ownerOf caller l pkpTokenId ts ds =
            .error Err.ArrayLengthMismatch ∧
          enableCustomToolPoliciesForDelegatees ownerOf caller l pkpTokenId ts ds =
            .error Err.ArrayLengthMismatch ∧
          disableCustomToolPoliciesForDelegatees ownerOf caller l pkpTokenId ts ds =
            .error Err.ArrayLengthMismatch)) := by
  by_cases hc : caller = ownerOf pkpTokenId <;>
    [refine ⟨fun hm => ⟨?_, fun _ => ?_⟩, fun hm => ⟨⟨?_, ?_, ?_⟩, fun _ => ⟨?_, ?_, ?_⟩⟩⟩;
     refine ⟨fun hm => ⟨?_, fun h => absurd h hc⟩,
       fun hm => ⟨⟨?_, ?_, ?_⟩, fun h => absurd h hc⟩⟩] <;>
    simp [setCustomToolPoliciesForDelegatees, removeCustomToolPoliciesForDelegatees,
      enableCustomToolPoliciesForDelegatees, disableCustomToolPoliciesForDelegatees,
      onlyPKPOwnerGuard, runTx, hc, *]

/-- Witness for C5: with one tool CID and no delegatees, each entry point called by the
owner reverts `ArrayLengthMismatch` and `wLayout` is unchanged. -/
theorem batch_length_mismatch_witness :
    (runTx (setCustomToolPoliciesForDelegatees (fun _ => 9) 9 wLayout 1 ["cidA"] [] []
        true) wLayout = wLayout ∧
      setCustomToolPoliciesForDelegatees (fun _ => 9) 9 wLayout 1 ["cidA"] [] [] true =
        .error Err.ArrayLengthMismatch) ∧
    removeCustomToolPoliciesForDelegatees (fun _ => 9) 9 wLayout 1 ["cidA"] [] =
      .error Err.ArrayLengthMismatch := by
  have h := batch_length_mismatch (fun _ => 9) 9 wLayout 1 ["cidA"] [] [] true
  exact ⟨⟨(h.1 (by decide)).1, (h.1 (by decide)).2 rfl⟩, ((h.2 (by decide)).2 rfl).1⟩

/-- On a non-empty policy CID and a registered tool, `_setToolPolicy` succeeds, and the
resulting state keeps every registered-tool set and rewrites the reverse index only at
the new policy hash. -/
theorem setToolPolicy_ok (l : Layout) (pkpTokenId : Nat) (t : String) (d : Nat)
    (p : String) (en : Bool) (hp : p ≠ "")
    (ht : hashToolCid t ∈ (l.pkpData pkpTokenId).toolCids) :
    ∃ l₂, setToolPolicy l pkpTokenId t d p en = .ok l₂ ∧
      (∀ p', (l₂.pkpData p').toolCids = (l.pkpData p').toolCids) ∧
      (∀ h', l₂.origCid h' = if h' = hashPolicyCid p then p else l.origCid h') := by
  refine ⟨recordPolicyWrite l pkpTokenId (hashToolCid t) d p en, ?_, fun p' => ?_,
    fun h' => ?_⟩
  · simp only [setToolPolicy]
    rw [if_neg hp, if_neg (not_not_intro ht)]
  · simpa [recordPolicyWrite, Layout.pkpData] using writeCustomPolicy_toolCids l
      pkpTokenId (hashToolCid t) d { policyIpfsCidHash := hashPolicyCid p, enabled := en }
      p'
  · simp [recordPolicyWrite, Layout.origCid, lookupD_setA, writeCustomPolicy]

/-- If every tool of the batch is registered and every policy CID is non-empty, a batch
containing the zero delegatee address drives the `setCustomToolPoliciesForDelegatees`
loop into the `InvalidDelegatee` revert. -/
theorem setPoliciesLoop_zero_delegatee (pkpTokenId : Nat) (en : Bool) :
    ∀ (ts : List String) (ds : List Nat) (ps : List String) (l : Layout),
      ts.length = ds.length → ds.length = ps.length →
      (∀ t ∈ ts, hashToolCid t ∈ (l.pkpData pkpTokenId).toolCids) →
      (∀ p ∈ ps, p ≠ "") →
      0 ∈ ds →
      setPoliciesLoop pkpTokenId en l ts ds ps = .error Err.InvalidDelegatee := by
  intro ts
  induction ts with
  | nil =>
    intro ds ps l h1 _ _ _ hz
    cases ds with
    | nil => simp at hz
    | cons d ds' => simp at h1
  | cons t ts ih =>
    intro ds ps l h1 h2 htools hpols hz
    cases ds with
    | nil => simp at h1
    | cons d ds' =>
      cases ps with
      | nil => simp at h2
      | cons p ps' =>
        simp only [setPoliciesLoop]
        by_cases hd : d = 0
        · simp [hd]
        · rw [if_neg hd]
          obtain ⟨l₂, hok, htc, _⟩ :=
            setToolPolicy_ok l pkpTokenId t d p en (hpols p (by simp)) (htools t (by simp))
          rw [hok]
          have hrec := ih ds' ps' l₂ (by simpa using h1) (by simpa using h2)
            (fun t' ht' => by rw [htc pkpTokenId]; exact htools t' (by simp [ht']))
            (fun p' hp' => hpols p' (by simp [hp']))
            (by rcases List.mem_cons.mp hz with h | h
                · exact absurd h.symm hd
                · exact h)
          simpa using hrec

/-- C3: a `setCustomToolPoliciesForDelegatees` batch whose delegatee array contains the
zero address reverts `InvalidDelegatee`, and no element of the batch — including those at
indices before the failing one — is applied: the post-transaction state equals the
pre-call state.  (Stated for an owner call with matching array lengths whose other
elements are individually valid — registered tools and non-empty policy CIDs — since any
of those failures also aborts the whole batch, with its own revert reason.) -/
theorem setCustomPolicies_zero_delegatee_atomic (ownerOf : Nat → Nat) (caller : Nat)
    (l : Layout) (pkpTokenId : Nat) (ts : List String) (ds : List Nat) (ps : List String)
    (en : Bool)
    (hown : caller = ownerOf pkpTokenId)
    (h1 : ts.length = ds.length) (h2 : ds.length = ps.length)
    (htools : ∀ t ∈ ts, hashToolCid t ∈ (l.pkpData pkpTokenId).toolCids)
    (hpols : ∀ p ∈ ps, p ≠ "")
    (hz : 0 ∈ ds) :
    setCustomToolPoliciesForDelegatees ownerOf caller l pkpTokenId ts ds ps en =
        .error Err.InvalidDelegatee ∧
      runTx (setCustomToolPoliciesForDelegatees ownerOf caller l pkpTokenId ts ds ps en)
        l = l := by
  have hloop := setPoliciesLoop_zero_delegatee pkpTokenId en ts ds ps l h1 h2 htools
    hpols hz
  have hmain : setCustomToolPoliciesForDelegatees ownerOf caller l pkpTokenId ts ds ps en
      = .error Err.InvalidDelegatee := by
    simp [setCustomToolPoliciesForDelegatees, onlyPKPOwnerGuard, hown, h1, h2, hloop]
  exact ⟨hmain, by rw [hmain]; rfl⟩

/-- Witness for C3: a two-element batch on `wLayout` whose second delegatee is the zero
address reverts `InvalidDelegatee` and leaves `wLayout` unchanged, although its first
element (`cidA`, delegatee `5`, policy `polX`) is valid. -/
theorem setCustomPolicies_zero_delegatee_atomic_witness :
    setCustomToolPoliciesForDelegatees (fun _ => 9) 9 wLayout 1 ["cidA", "cidA"] [5, 0]
        ["polX", "polY"] true = .error Err.InvalidDelegatee ∧
      runTx (setCustomToolPoliciesForDelegatees (fun _ => 9) 9 wLayout 1 ["cidA", "cidA"]
        [5, 0] ["polX", "polY"] true) wLayout = wLayout :=
  setCustomPolicies_zero_delegatee_atomic (fun _ => 9) 9 wLayout 1 ["cidA", "cidA"]
    [5, 0] ["polX", "polY"] true rfl (by decide) (by decide) (by decide) (by decide)
    (by decide)

/-- Inversion for a successful `_setToolPolicy` element: the new reverse index equals the
old one except at the hash of the written policy CID, where it holds that CID. -/
theorem setToolPolicy_ok_origCid (l l₂ : Layout) (pkpTokenId : Nat) (t : String)
    (d : Nat) (p : String) (en : Bool)
    (h : setToolPolicy l pkpTokenId t d p en = .ok l₂) :
    ∀ h', l₂.origCid h' = if h' = hashPolicyCid p then p else l.origCid h' := by
  simp only [setToolPolicy] at h
  split at h
  · exact absurd h (by simp)
  · split at h
    · exact absurd h (by simp)
    · injection h with h
      subst h
      intro h'
      simp [recordPolicyWrite, Layout.origCid, lookupD_setA, writeCustomPolicy]

/-- Loop invariant for the reverse-index round-trip: once a policy CID `X` appears in the
still-to-be-processed batch, or the reverse index already maps `hash(X)` to `X`, a
successful run of the loop ends with the reverse index mapping `hash(X)` to `X` (later
writes can only rewrite that key with `X` itself, keccak being collision-free). -/
theorem setPoliciesLoop_origCid (pkpTokenId : Nat) (en : Bool) :
    ∀ (ts : List String) (ds : List Nat) (ps : List String) (l l' : Layout),
      setPoliciesLoop pkpTokenId en l ts ds ps = .ok l' →
      ∀ X, (X ∈ ps.take (min ts.length ds.length) ∨ l.origCid (hashPolicyCid X) = X) →
        l'.origCid (hashPolicyCid X) = X := by
  intro ts
  induction ts with
  | nil =>
    intro ds ps l l' hok X hX
    simp only [setPoliciesLoop] at hok
    injection hok with hok
    subst hok
    rcases hX with h | h
    · simp at h
    · exact h
  | cons t ts ih =>
    intro ds ps l l' hok X hX
    cases ds with
    | nil =>
      simp only [setPoliciesLoop] at hok
      injection hok with hok
      subst hok
      rcases hX with h | h
      · simp at h
      · exact h
    | cons d ds' =>
      cases ps with
      | nil =>
        simp only [setPoliciesLoop] at hok
        injection hok with hok
        subst hok
        rcases hX with h | h
        · simp at h
        · exact h
      | cons p ps' =>
        simp only [setPoliciesLoop] at hok
        split at hok
        · exact absurd hok (by simp)
        · cases hsp : setToolPolicy l pkpTokenId t d p en with
          | error e => rw [hsp] at hok; exact absurd hok (by simp)
          | ok l₂ =>
            rw [hsp] at hok
            have horig := setToolPolicy_ok_origCid l l₂ pkpTokenId t d p en hsp
            refine ih ds' ps' l₂ l' hok X ?_
            rcases hX with h | h
            · rw [List.length_cons, List.length_cons, Nat.succ_min_succ,
                List.take_succ_cons] at h
              rcases List.mem_cons.mp h with h | h
              · subst h
                right
                rw [horig, if_pos rfl]
              · left
                exact h
            · by_cases hXp : hashPolicyCid X = hashPolicyCid p
              · right
                rw [horig, if_pos hXp]
                simpa [hashPolicyCid] using hXp.symm
              · right
                rw [horig, if_neg hXp]
                exact h

/-- C7: round-trip through the reverse index.  After a successful
`setCustomToolPoliciesForDelegatees` call one of whose elements sets the policy
identifier `X`, the global reverse index maps `hash(X)` back to exactly `X`; consequently
a subsequent resolution that selects a slot holding `hash(X)` returns the identifier `X`
unchanged. -/
theorem setCustomPolicies_roundtrip (ownerOf : Nat → Nat) (caller : Nat) (l : Layout)
    (pkpTokenId : Nat) (ts : List String) (ds : List Nat) (ps : List String) (en : Bool)
    (l' : Layout) (X : String)
    (hok : setCustomToolPoliciesForDelegatees ownerOf caller l pkpTokenId ts ds ps en =
      .ok l')
    (hX : X ∈ ps) :
    l'.origCid (hashPolicyCid X) = X ∧
      (∀ t' d', hashToolCid t' ∈ (l'.pkpData pkpTokenId).toolCids →
        (((l'.pkpData pkpTokenId).tool (hashToolCid t')).customPolicy
            d').policyIpfsCidHash = hashPolicyCid X →
        (((l'.pkpData pkpTokenId).tool (hashToolCid t')).customPolicy d').enabled =
          true →
        getEffectiveToolPolicyForDelegatee l' pkpTokenId t' d' = .ok (X, true)) := by
  simp only [setCustomToolPoliciesForDelegatees, onlyPKPOwnerGuard] at hok
  split at hok
  · exact absurd hok (by simp)
  · split at hok
    · exact absurd hok (by simp)
    · rename_i hlen
      rw [not_not] at hlen
      have hrt : l'.origCid (hashPolicyCid X) = X := by
        refine setPoliciesLoop_origCid pkpTokenId en ts ds ps l l' hok X (Or.inl ?_)
        have hmin : min ts.length ds.length = ps.length := by
          rw [hlen.1, Nat.min_self, hlen.2]
        rw [hmin, List.take_length]
        exact hX
      refine ⟨hrt, fun t' d' hreg hh he => ?_⟩
      have hnz : (((l'.pkpData pkpTokenId).tool (hashToolCid t')).customPolicy
          d').policyIpfsCidHash ≠ B32.zero := by
        rw [hh]; simp [hashPolicyCid]
      simp only [getEffectiveToolPolicyForDelegatee]
      rw [if_neg (not_not_intro hreg), if_pos ⟨hnz, he⟩, hh, hrt]

/-- Witness for C7: setting `polX` for `(cidA, 5)` on `wLayout` makes the reverse index
resolve `hash(polX)` back to `polX`. -/
theorem setCustomPolicies_roundtrip_witness :
    (runTx (setCustomToolPoliciesForDelegatees (fun _ => 9) 9 wLayout 1 ["cidA"] [5]
        ["polX"] true) wLayout).origCid (hashPolicyCid "polX") = "polX" := by
  have hok : setCustomToolPoliciesForDelegatees (fun _ => 9) 9 wLayout 1 ["cidA"] [5]
      ["polX"] true = .ok (runTx (setCustomToolPoliciesForDelegatees (fun _ => 9) 9
        wLayout 1 ["cidA"] [5] ["polX"] true) wLayout) := by rfl
  exact (setCustomPolicies_roundtrip (fun _ => 9) 9 wLayout 1 ["cidA"] [5] ["polX"] true
    _ "polX" hok (by decide)).1

/-- On a registered tool whose custom slot holds no policy hash, `_enablePolicy` /
`_disablePolicy` revert `NoPolicySet`. -/
theorem togglePolicy_noPolicySet (b : Bool) (l : Layout) (pkpTokenId : Nat) (t : String)
    (d : Nat) (ht : hashToolCid t ∈ (l.pkpData pkpTokenId).toolCids)
    (hz : (((l.pkpData pkpTokenId).tool (hashToolCid t)).customPolicy
      d).policyIpfsCidHash = B32.zero) :
    togglePolicy b l pkpTokenId t d = .error Err.NoPolicySet := by
  simp only [togglePolicy]
  rw [if_neg (not_not_intro ht), if_pos hz]

/-- A successful `_enablePolicy` / `_disablePolicy` element flips an enabled flag only:
every registered-tool set and every custom-slot policy hash is unchanged. -/
theorem togglePolicy_ok_preserves (b : Bool) (l l₂ : Layout) (pkpTokenId : Nat)
    (t : String) (d : Nat) (h : togglePolicy b l pkpTokenId t d = .ok l₂) :
    (∀ p', (l₂.pkpData p').toolCids = (l.pkpData p').toolCids) ∧
      (∀ p' th' d', (((l₂.pkpData p').tool th').customPolicy d').policyIpfsCidHash =
        (((l.pkpData p').tool th').customPolicy d').policyIpfsCidHash) := by
  simp only [togglePolicy] at h
  split at h
  · exact absurd h (by simp)
  · split at h
    · exact absurd h (by simp)
    · injection h with h
      subst h
      refine ⟨fun p' => writeCustomPolicy_toolCids _ _ _ _ _ _, fun p' th' d' => ?_⟩
      rw [writeCustomPolicy_customPolicy]
      split
      · rename_i hk
        obtain ⟨rfl, rfl, rfl⟩ := hk
        rfl
      · rfl

/-- If every delegatee of the batch is non-zero and every tool is registered, a batch
containing a slot without a custom policy hash drives the enable/disable loop into the
`NoPolicySet` revert. -/
theorem togglePairLoop_noPolicySet (b : Bool) (pkpTokenId : Nat) :
    ∀ (ts : List String) (ds : List Nat) (l : Layout),
      ts.length = ds.length →
      (∀ t ∈ ts, hashToolCid t ∈ (l.pkpData pkpTokenId).toolCids) →
      (∀ d ∈ ds, d ≠ 0) →
      (∃ pr ∈ List.zip ts ds,
        (((l.pkpData pkpTokenId).tool (hashToolCid pr.1)).customPolicy
          pr.2).policyIpfsCidHash = B32.zero) →
      policyPairLoop (fun l' t d => togglePolicy b l' pkpTokenId t d) l ts ds =
        .error Err.NoPolicySet := by
  intro ts
  induction ts with
  | nil =>
    intro ds l _ _ _ hex
    obtain ⟨pr, hpr, _⟩ := hex
    simp at hpr
  | cons t ts ih =>
    intro ds l h1 htools hds hex
    cases ds with
    | nil => simp at h1
    | cons d ds' =>
      simp only [policyPairLoop]
      rw [if_neg (hds d (by simp))]
      by_cases hz : (((l.pkpData pkpTokenId).tool (hashToolCid t)).customPolicy
          d).policyIpfsCidHash = B32.zero
      · rw [togglePolicy_noPolicySet b l pkpTokenId t d (htools t (by simp)) hz]
      · have hok : togglePolicy b l pkpTokenId t d = .ok (writeCustomPolicy l pkpTokenId
            (hashToolCid t) d { ((l.pkpData pkpTokenId).tool
              (hashToolCid t)).customPolicy d with enabled := b }) := by
          simp only [togglePolicy]
          rw [if_neg (not_not_intro (htools t (by simp))), if_neg hz]
        rw [hok]
        obtain ⟨htc, hslot⟩ := togglePolicy_ok_preserves b l _ pkpTokenId t d hok
        have hrec := ih ds' _ (by simpa using h1)
          (fun t' ht' => by rw [htc pkpTokenId]; exact htools t' (by simp [ht']))
          (fun d' hd' => hds d' (by simp [hd']))
          (by obtain ⟨⟨pt, pd⟩, hpr, hprz⟩ := hex
              rw [List.zip_cons_cons] at hpr
              rcases List.mem_cons.mp hpr with h | h
              · exfalso
                injection h with h1' h2'
                subst h1'
                subst h2'
                exact hz hprz
              · exact ⟨(pt, pd), h, by rw [hslot pkpTokenId (hashToolCid pt) pd]
                                       exact hprz⟩)
        exact hrec

/-- C8: for every state and every `(toolId, delegatee)` slot where no custom policy hash
exists, `enableCustomToolPoliciesForDelegatees` and
`disableCustomToolPoliciesForDelegatees` on a batch containing that slot revert
`NoPolicySet` rather than succeeding as a no-op, and the whole batch is aborted: the
post-transaction state equals the pre-call state.  (Stated for an owner call with
matching array lengths, non-zero delegatees and registered tools, since any of those
failures also aborts the whole batch, with its own revert reason.) -/
theorem enableDisable_noPolicySet_atomic (ownerOf : Nat → Nat) (caller : Nat)
    (l : Layout) (pkpTokenId : Nat) (ts : List String) (ds : List Nat)
    (hown : caller = ownerOf pkpTokenId) (h1 : ts.length = ds.length)
    (htools : ∀ t ∈ ts, hashToolCid t ∈ (l.pkpData pkpTokenId).toolCids)
    (hds : ∀ d ∈ ds, d ≠ 0)
    (hex : ∃ pr ∈ List.zip ts ds,
      (((l.pkpData pkpTokenId).tool (hashToolCid pr.1)).customPolicy
        pr.2).policyIpfsCidHash = B32.zero) :
    enableCustomToolPoliciesForDelegatees ownerOf caller l pkpTokenId ts ds =
        .error Err.NoPolicySet ∧
      runTx (enableCustomToolPoliciesForDelegatees ownerOf caller l pkpTokenId ts ds)
        l = l ∧
      disableCustomToolPoliciesForDelegatees ownerOf caller l pkpTokenId ts ds =
        .error Err.NoPolicySet ∧
      runTx (disableCustomToolPoliciesForDelegatees ownerOf caller l pkpTokenId ts ds)
        l = l := by
  have hloopE := togglePairLoop_noPolicySet true pkpTokenId ts ds l h1 htools hds hex
  have hloopD := togglePairLoop_noPolicySet false pkpTokenId ts ds l h1 htools hds hex
  have hmainE : enableCustomToolPoliciesForDelegatees ownerOf caller l pkpTokenId ts ds
      = .error Err.NoPolicySet := by
    simp [enableCustomToolPoliciesForDelegatees, onlyPKPOwnerGuard, hown, h1,
      enablePolicy, hloopE]
  have hmainD : disableCustomToolPoliciesForDelegatees ownerOf caller l pkpTokenId ts ds
      = .error Err.NoPolicySet := by
    simp [disableCustomToolPoliciesForDelegatees, onlyPKPOwnerGuard, hown, h1,
      disablePolicy, hloopD]
  exact ⟨hmainE, by rw [hmainE]; rfl, hmainD, by rw [hmainD]; rfl⟩

/-- Witness for C8: in `wLayout`, delegatee `6` has no custom policy on `cidA`, so an
owner batch naming that slot reverts `NoPolicySet` and leaves the state unchanged. -/
theorem enableDisable_noPolicySet_atomic_witness :
    enableCustomToolPoliciesForDelegatees (fun _ => 9) 9 wLayout 1 ["cidA"] [6] =
        .error Err.NoPolicySet ∧
      runTx (enableCustomToolPoliciesForDelegatees (fun _ => 9) 9 wLayout 1 ["cidA"] [6])
        wLayout = wLayout ∧
      disableCustomToolPoliciesForDelegatees (fun _ => 9) 9 wLayout 1 ["cidA"] [6] =
        .error Err.NoPolicySet ∧
      runTx (disableCustomToolPoliciesForDelegatees (fun _ => 9) 9 wLayout 1 ["cidA"]
        [6]) wLayout = wLayout :=
  enableDisable_noPolicySet_atomic (fun _ => 9) 9 wLayout 1 ["cidA"] [6] rfl (by decide)
    (by decide) (by decide) ⟨("cidA", 6), by decide, by decide⟩

end PKPToolRegistry
